import Mathlib

/-!
Verification of the multi-provider content-generation orchestration layer of
the GSFP tool: a shallow embedding of the Gemini and Anthropic content
generators, the provider factory, and the community-recommendation helpers,
together with proofs and refutations of the specified properties.

Modelling conventions:
* JavaScript strings are modelled by Lean `String`; `s.length` counts
  characters (code points), matching JS for the inputs considered here.
* Asynchronous model calls are modelled by oracles indexed by a running call
  counter held in `AdapterState`; concurrently issued group calls are
  processed sequentially in group order (join-all semantics).
* `Date.now() + Math.random()` post ids are modelled by a fresh-id counter.
* A raw model response is abstracted to the outcome of the adapter's own
  parse pipeline: call failure (with or without a quota marker in the error
  text), a response with no brace-delimited JSON substring or unparsable
  JSON (`malformed`), or a parsed JSON object whose optional fields are
  `Option`-valued (`none` models an absent field, i.e. JS `undefined`).
-/

/-- JavaScript `a || b` where `a` is a possibly-undefined string: both
`undefined` and the empty string are falsy. -/
def jsOrS : Option String → String → String
  | none, b => b
  | some s, b => if s = "" then b else s

/-- JavaScript `a || b` where both operands are possibly-undefined strings. -/
def jsOrO : Option String → Option String → Option String
  | none, b => b
  | some s, b => if s = "" then b else some s

/-- JavaScript `a || b` on two plain strings (the empty string is falsy). -/
def jsOrStr (a b : String) : String := if a = "" then b else a

/-- JavaScript template-literal stringification of a possibly-undefined
string value (`undefined` prints as "undefined"). -/
def jsShow : Option String → String
  | none => "undefined"
  | some s => s

/-- JavaScript `s.substring(0, n)`; a negative end index clamps to 0, which
coincides with truncated `Nat` subtraction at every call site below. -/
def jsSubstring (s : String) (n : Nat) : String := ⟨s.data.take n⟩

/-- JavaScript `hay.includes(needle)` substring test. -/
def jsIncludes (hay needle : String) : Bool :=
  hay.data.tails.any fun t => needle.data.isPrefixOf t

/-- JavaScript `s.toLowerCase()` (character-wise lowering, extensionally the
same as `String.toLower`). -/
def jsToLower (s : String) : String := ⟨s.data.map Char.toLower⟩

/-- Owner block of a GitHub project record (src/unnamed/part_003). -/
structure Owner where
  login : String
  avatar_url : String
deriving DecidableEq

/-- The `GitHubProject` interface (src/unnamed/part_003). -/
structure GitHubProject where
  name : String
  description : String
  url : String
  language : String
  stars : Nat
  forks : Nat
  topics : List String
  readme : String
  owner : Owner
  created_at : String
  updated_at : String
  projectType : String
  keyFeatures : List String
deriving DecidableEq

/-- The `PlatformConfig` interface (src/unnamed/part_003). -/
structure PlatformConfig where
  name : String
  maxCharacters : Nat
  hashtagLimit : Nat
  url : String
  categories : List String
  rules : List String
  isCommunity : Option Bool := none
  parentPlatform : Option String := none
deriving DecidableEq

/-- The `SocialPost` interface (src/unnamed/part_003).  `id` is optional in
the source (`id?: number`); `title` and `content` are typed `string` there
but can hold `undefined` at runtime on the Gemini parse path, so they are
`Option`-valued here. -/
structure SocialPost where
  id : Option Nat
  platform : String
  title : Option String
  content : Option String
  hashtags : List String
  characterCount : Nat
  maxCharacters : Nat
  url : String
  copyText : String
deriving DecidableEq

/-- Fields of one post-shaped JSON object parsed out of a model response;
`none` models an absent field. -/
structure PostData where
  title : Option String := none
  content : Option String := none
  hashtags : Option (List String) := none
  copyText : Option String := none
deriving DecidableEq

/-- Outcome of one individual model call, distinguishing the cases the
adapters branch on: rejection whose error text carries a quota marker
(`isQuotaExceededError`), any other rejection, a response whose text has no
parseable JSON object, and a parsed JSON object. -/
inductive SingleRes where
  | failQuota
  | failOther
  | malformed
  | ok (d : PostData)
deriving DecidableEq

/-- Outcome of one grouped model call: rejection, unparsable response
(no JSON substring, JSON.parse failure, or a missing `posts` array — all of
which throw inside the same try block), or a parsed `posts` array. -/
inductive GroupRes where
  | fail
  | malformed
  | ok (ds : List PostData)
deriving DecidableEq

/-- Mutable per-adapter-instance state: the rate-limit request counter
(Gemini only), a running count of model calls issued, and the fresh-id
source standing in for `Date.now()`/`Math.random()`. -/
structure AdapterState where
  requestCount : Nat
  calls : Nat
  nextId : Nat
deriving DecidableEq

/-- Oracle giving the outcome of the n-th model call when it is an
individual (single-platform or single-post) call. -/
abbrev SingleOracle := Nat → SingleRes

/-- Oracle giving the outcome of the n-th model call when it is a grouped
generation call for the given platform group. -/
abbrev GenGroupOracle := Nat → List PlatformConfig → GroupRes

/-- Oracle giving the outcome of the n-th model call when it is a grouped
modification call for the given post group. -/
abbrev ModGroupOracle := Nat → List SocialPost → GroupRes

/-- The fixed X-community allow-list (`validateXCommunities`, identical in
the Gemini source and src/src/lib/anthropic.ts). -/
def validXCommunityNames : List String :=
  ["TypeScript Community", "React Community", "OpenSource Community", "WebDev Community",
   "API Community", "GitHub Community", "Programming Community", "AI Community",
   "JavaScript Community", "Python Community", "Node.js Community", "Vue.js Community",
   "Angular Community", "DevOps Community", "Mobile Dev Community"]

/-- The fixed Reddit allow-list (`validateRedditCommunities`, identical in
the Gemini source and src/src/lib/anthropic.ts). -/
def validRedditCommunityNames : List String :=
  ["r/programming", "r/webdev", "r/opensource", "r/typescript", "r/github",
   "r/reactjs", "r/node", "r/python", "r/learnpython", "r/datascience",
   "r/vuejs", "r/angular", "r/rest", "r/graphql", "r/reactnative",
   "r/flutter", "r/ios", "r/android", "r/machinelearning", "r/artificial",
   "r/deeplearning", "r/ai", "r/devops", "r/docker", "r/kubernetes",
   "r/aws", "r/coding", "r/mobile"]

/-- `validateXCommunities`: filter candidates against the allow-list, then
truncate to 5 entries. -/
def validateXCommunities (communities : List String) : List String :=
  (communities.filter fun c => decide (c ∈ validXCommunityNames)).take 5

/-- `validateRedditCommunities`: filter candidates against the allow-list,
then truncate to 5 entries. -/
def validateRedditCommunities (communities : List String) : List String :=
  (communities.filter fun c => decide (c ∈ validRedditCommunityNames)).take 5

/-- Result shape of `findRelevantCommunities`. -/
structure CommunityRecommendation where
  x : List String
  reddit : List String
deriving DecidableEq

/-- The three extra entries the fallback recommender pushes onto the
X-community seed list, keyed on project type / language. -/
def fallbackXBranch (projectType language : String) : List String :=
  if jsIncludes projectType "web" || language = "javascript" || language = "typescript" then
    ["WebDev Community", "JavaScript Community", "TypeScript Community"]
  else if language = "python" then
    ["Python Community", "AI Community", "DataScience Community"]
  else if jsIncludes projectType "mobile" then
    ["Mobile Dev Community", "React Community", "JavaScript Community"]
  else
    ["WebDev Community", "GitHub Community", "API Community"]

/-- The three extra entries the fallback recommender pushes onto the Reddit
seed list, keyed on project type / language. -/
def fallbackRedditBranch (projectType language : String) : List String :=
  if jsIncludes projectType "web" || language = "javascript" || language = "typescript" then
    ["r/webdev", "r/javascript", "r/typescript"]
  else if language = "python" then
    ["r/python", "r/datascience", "r/machinelearning"]
  else if jsIncludes projectType "mobile" then
    ["r/reactnative", "r/flutter", "r/mobile"]
  else
    ["r/webdev", "r/github", "r/coding"]

/-- `getFallbackCommunities`: deterministic rule-based recommender, identical
in the Gemini source and src/src/lib/anthropic.ts.  Two-entry seed lists,
three pushed entries per branch, both sides sliced to 5. -/
def getFallbackCommunities (project : GitHubProject) : CommunityRecommendation :=
  let projectType := jsToLower project.projectType
  let language := jsToLower project.language
  { x := (["OpenSource Community", "Programming Community"] ++
            fallbackXBranch projectType language).take 5
    reddit := (["r/programming", "r/opensource"] ++
            fallbackRedditBranch projectType language).take 5 }

/-- Outcome of the community-search model call.  `ok` carries the parsed
`x` and `reddit` fields (`none` when the field is absent, in which case the
Gemini adapter's `.filter` call throws and control falls to the catch). -/
inductive CommRes where
  | fail
  | malformed
  | ok (x : Option (List String)) (reddit : Option (List String))
deriving DecidableEq

/-- `findRelevantCommunities` (Gemini source): validate the model's lists on
success; any call, parse, or validation failure falls back to
`getFallbackCommunities`. -/
def geminiFindRelevantCommunities (res : CommRes) (project : GitHubProject) :
    CommunityRecommendation :=
  match res with
  | CommRes.ok (some xs) (some rs) =>
      { x := validateXCommunities xs, reddit := validateRedditCommunities rs }
  | _ => getFallbackCommunities project

/-- Title, content and pre-truncation copyText assembled by
`createFallbackPost` (identical in the Gemini source and
src/src/lib/anthropic.ts), switching on platform-name substrings. -/
def fallbackTemplate (project : GitHubProject) (platform : PlatformConfig) :
    String × String × String :=
  let projectName := project.name
  let description := jsOrStr project.description "Open source project"
  let language := project.language
  if jsIncludes platform.name "Twitter" || jsIncludes platform.name "X" then
    (projectName, description, projectName ++ ": " ++ description)
  else if jsIncludes platform.name "Reddit" then
    let title := projectName ++ " - " ++ description
    let content := "Just released " ++ projectName ++ ", a " ++ language ++
      " project. " ++ description
    (title, content, "**" ++ title ++ "**\n\n" ++ content)
  else if jsIncludes platform.name "Product Hunt" then
    (projectName, description, projectName ++ " - " ++ description)
  else if jsIncludes platform.name "LinkedIn" then
    let title := "New " ++ language ++ " project: " ++ projectName
    let content := "Excited to share " ++ projectName ++ "! " ++ description
    (title, content, title ++ "\n\n" ++ content)
  else if jsIncludes platform.name "Dev.to" || jsIncludes platform.name "Hacker News" then
    let title := projectName ++ ": " ++ description
    let content := "Built " ++ projectName ++ " using " ++ language ++ ". " ++ description
    (title, content, title ++ "\n\n" ++ content)
  else
    (projectName, description, projectName ++ ": " ++ description)

/-- `createFallbackPost` (identical in the Gemini source and
src/src/lib/anthropic.ts): deterministic template post, with the assembled
copyText truncated to `maxCharacters - 3` characters plus a three-character
ellipsis when it exceeds `maxCharacters`. -/
def createFallbackPost (freshId : Nat) (project : GitHubProject)
    (platform : PlatformConfig) : SocialPost :=
  let t := fallbackTemplate project platform
  let copyText :=
    if t.2.2.length > platform.maxCharacters then
      jsSubstring t.2.2 (platform.maxCharacters - 3) ++ "..."
    else t.2.2
  { id := some freshId
    platform := platform.name
    title := some t.1
    content := some t.2.1
    hashtags := []
    characterCount := copyText.length
    maxCharacters := platform.maxCharacters
    url := platform.url
    copyText := copyText }

/-- Post built from one parsed JSON post object: the construction shared by
Anthropic `parseGeneratedContent` / `parseGroupContent` and the Gemini
grouped generation path (`title: data.title || ''`, `characterCount:
data.copyText?.length || 0`, `copyText: data.copyText || ''`). -/
def mkParsedPost (freshId : Nat) (d : PostData) (platform : PlatformConfig) : SocialPost :=
  { id := some freshId
    platform := platform.name
    title := some (jsOrS d.title "")
    content := some (jsOrS d.content "")
    hashtags := d.hashtags.getD []
    characterCount := match d.copyText with
      | none => 0
      | some s => s.length
    maxCharacters := platform.maxCharacters
    url := platform.url
    copyText := jsOrS d.copyText "" }

/-- Anthropic `getPlatformType` (src/src/lib/anthropic.ts): note the
unmatched case maps to "developer", with no reserved "other" key. -/
def anthGetPlatformType (platform : PlatformConfig) : String :=
  if platform.categories.contains "Social Media" then "social"
  else if platform.categories.contains "Product Launch" then "launch"
  else if platform.categories.contains "Professional" then "professional"
  else "developer"

/-- Anthropic `getPostType` (src/src/lib/anthropic.ts): the unmatched case
maps to "professional". -/
def anthGetPostType (post : SocialPost) : String :=
  if jsIncludes post.platform "Twitter" || jsIncludes post.platform "LinkedIn" ||
      jsIncludes post.platform "Facebook" then "social"
  else if jsIncludes post.platform "Product Hunt" || jsIncludes post.platform "Launch" then
    "launch"
  else if jsIncludes post.platform "Dev.to" || jsIncludes post.platform "Hacker News" then
    "developer"
  else "professional"

/-- One step of the `groups[type].push(item)` accumulation on a string-keyed
record whose keys keep insertion order. -/
def insertGrouped (k : String) (a : α) : List (String × List α) → List (String × List α)
  | [] => [(k, [a])]
  | (k2, as) :: rest =>
      if k2 = k then (k2, as ++ [a]) :: rest else (k2, as) :: insertGrouped k a rest

/-- `groupPlatformsByType` / `groupPostsByPlatformType` skeleton: fold the
input through the keyed accumulation, then read the groups off in key
insertion order (JS `Object.entries`). -/
def groupByKey (key : α → String) (l : List α) : List (String × List α) :=
  l.foldl (fun gs a => insertGrouped (key a) a gs) []

/-- Concatenation of the member lists of a group list. -/
def flatSnd : List (String × List α) → List α
  | [] => []
  | g :: gs => g.2 ++ flatSnd gs

/-- Anthropic `generatePostForPlatform`: issues one model call; a rejection
carrying a quota marker and a parse failure both yield the deterministic
fallback post, while any other rejection is re-thrown (`Except.error`). -/
def anthGeneratePostForPlatform (sod : SingleOracle) (project : GitHubProject)
    (platform : PlatformConfig) (st : AdapterState) :
    Except Unit SocialPost × AdapterState :=
  let res := sod st.calls
  let st1 := { st with calls := st.calls + 1 }
  match res with
  | SingleRes.failOther => (Except.error (), st1)
  | SingleRes.failQuota =>
      (Except.ok (createFallbackPost st1.nextId project platform),
       { st1 with nextId := st1.nextId + 1 })
  | SingleRes.malformed =>
      (Except.ok (createFallbackPost st1.nextId project platform),
       { st1 with nextId := st1.nextId + 1 })
  | SingleRes.ok d =>
      (Except.ok (mkParsedPost st1.nextId d platform),
       { st1 with nextId := st1.nextId + 1 })

/-- An individual generation call wrapped in the `try/catch` of the recovery
loops: a re-thrown error is absorbed into a deterministic fallback post. -/
def anthGeneratePostCaught (sod : SingleOracle) (project : GitHubProject)
    (platform : PlatformConfig) (st : AdapterState) : SocialPost × AdapterState :=
  match anthGeneratePostForPlatform sod project platform st with
  | (Except.ok post, st1) => (post, st1)
  | (Except.error _, st1) =>
      (createFallbackPost st1.nextId project platform,
       { st1 with nextId := st1.nextId + 1 })

/-- The per-platform recovery loop (`for platform of platforms` with an
inner try/catch), used by the grouped-call catch and the top-level catch. -/
def anthGenerateEach (sod : SingleOracle) (project : GitHubProject) :
    List PlatformConfig → AdapterState → List SocialPost × AdapterState
  | [], st => ([], st)
  | p :: ps, st =>
      let r := anthGeneratePostCaught sod project p st
      let rest := anthGenerateEach sod project ps r.2
      (r.1 :: rest.1, rest.2)

/-- `platforms.map(p => createFallbackPost(project, p))` with sequential
fresh ids. -/
def fallbackAll (project : GitHubProject) :
    List PlatformConfig → Nat → List SocialPost
  | [], _ => []
  | p :: ps, base => createFallbackPost base project p :: fallbackAll project ps (base + 1)

/-- `data.posts.forEach((postData, index) => ...)` of the grouped parse:
each parsed entry is paired positionally with the group's platform at the
same index; entries beyond the platform list are skipped, and platforms
beyond the entry list are silently dropped. -/
def mkGroupPosts (baseId : Nat) : List PostData → List PlatformConfig → List SocialPost
  | _, [] => []
  | [], _ => []
  | d :: ds, p :: ps => mkParsedPost baseId d p :: mkGroupPosts (baseId + 1) ds ps

/-- Anthropic `generatePostsForGroup` together with `parseGroupContent`: a
rejected grouped call retries every member individually; an unparsable
response substitutes a fallback post for every member; a parsed `posts`
array is paired positionally with the group. -/
def anthGeneratePostsForGroup (god : GenGroupOracle) (sod : SingleOracle)
    (project : GitHubProject) (platforms : List PlatformConfig) (st : AdapterState) :
    List SocialPost × AdapterState :=
  let res := god st.calls platforms
  let st1 := { st with calls := st.calls + 1 }
  match res with
  | GroupRes.fail => anthGenerateEach sod project platforms st1
  | GroupRes.malformed =>
      (fallbackAll project platforms st1.nextId,
       { st1 with nextId := st1.nextId + platforms.length })
  | GroupRes.ok ds =>
      let posts := mkGroupPosts st1.nextId ds platforms
      (posts, { st1 with nextId := st1.nextId + posts.length })

/-- The fan-out over platform groups: a singleton group issues an individual
call (whose non-quota rejection propagates and rejects the join), any other
group issues a grouped call (which never rejects). -/
def anthProcessGroups (god : GenGroupOracle) (sod : SingleOracle)
    (project : GitHubProject) :
    List (String × List PlatformConfig) → AdapterState →
    Except Unit (List SocialPost) × AdapterState
  | [], st => (Except.ok [], st)
  | g :: gs, st =>
      match g.2 with
      | [p] =>
          match anthGeneratePostForPlatform sod project p st with
          | (Except.error e, st1) => (Except.error e, st1)
          | (Except.ok post, st1) =>
              match anthProcessGroups god sod project gs st1 with
              | (Except.ok rest, st2) => (Except.ok (post :: rest), st2)
              | (Except.error e, st2) => (Except.error e, st2)
      | ps =>
          let r := anthGeneratePostsForGroup god sod project ps st
          match anthProcessGroups god sod project gs r.2 with
          | (Except.ok rest, st2) => (Except.ok (r.1 ++ rest), st2)
          | (Except.error e, st2) => (Except.error e, st2)

/-- Anthropic `generateSocialPosts` (src/src/lib/anthropic.ts): group the
platforms, fan out, and on a rejected join retry every platform
individually with per-platform fallback. -/
def anthGenerateSocialPosts (god : GenGroupOracle) (sod : SingleOracle)
    (project : GitHubProject) (platforms : List PlatformConfig)
    (_customInstructions : Option String) (st : AdapterState) :
    List SocialPost × AdapterState :=
  match anthProcessGroups god sod project (groupByKey anthGetPlatformType platforms) st with
  | (Except.ok posts, st1) => (posts, st1)
  | (Except.error _, st1) => anthGenerateEach sod project platforms st1

/-- Merge one parsed modification object over the original post (Anthropic
`parseModificationContent` / `parseGroupModificationContent` success body):
spread of the original with content-bearing fields overridden through
JS `||` defaults. -/
def anthMergeModPost (d : PostData) (orig : SocialPost) : SocialPost :=
  { orig with
    title := jsOrO d.title orig.title
    content := jsOrO d.content orig.content
    hashtags := d.hashtags.getD orig.hashtags
    characterCount := match d.copyText with
      | none => orig.characterCount
      | some s => if s = "" then orig.characterCount else s.length
    copyText := jsOrS d.copyText orig.copyText }

/-- Anthropic `parseModificationContent`: an unparsable response returns the
original post unchanged. -/
def anthParseModificationContent (parsed : Option PostData) (orig : SocialPost) :
    SocialPost :=
  match parsed with
  | none => orig
  | some d => anthMergeModPost d orig

/-- The `data.posts.forEach` body of the grouped modification parse:
positional merge of parsed entries over the original posts, skipping
entries without a counterpart. -/
def mkGroupModPosts : List PostData → List SocialPost → List SocialPost
  | _, [] => []
  | [], _ => []
  | d :: ds, q :: qs => anthMergeModPost d q :: mkGroupModPosts ds qs

/-- Anthropic `parseGroupModificationContent`: positional merge of parsed
entries over the original posts; an unparsable response returns the
originals; a `posts` array shorter than the group drops the tail. -/
def anthParseGroupModificationContent (parsed : Option (List PostData))
    (origs : List SocialPost) : List SocialPost :=
  match parsed with
  | none => origs
  | some ds => mkGroupModPosts ds origs

/-- Anthropic `modifyPostForPlatform`: one model call; every failure mode
returns the original post. -/
def anthModifyPostForPlatform (sod : SingleOracle) (post : SocialPost)
    (st : AdapterState) : SocialPost × AdapterState :=
  let res := sod st.calls
  let st1 := { st with calls := st.calls + 1 }
  match res with
  | SingleRes.failQuota => (post, st1)
  | SingleRes.failOther => (post, st1)
  | SingleRes.malformed => (anthParseModificationContent none post, st1)
  | SingleRes.ok d => (anthParseModificationContent (some d) post, st1)

/-- Anthropic `modifyPostsForGroup`: one grouped call; a rejection returns
the group's original posts, otherwise the grouped parse result. -/
def anthModifyPostsForGroup (god : ModGroupOracle) (posts : List SocialPost)
    (st : AdapterState) : List SocialPost × AdapterState :=
  let res := god st.calls posts
  let st1 := { st with calls := st.calls + 1 }
  match res with
  | GroupRes.fail => (posts, st1)
  | GroupRes.malformed => (anthParseGroupModificationContent none posts, st1)
  | GroupRes.ok ds => (anthParseGroupModificationContent (some ds) posts, st1)

/-- The modification fan-out over post groups.  No branch rejects, so the
top-level catch of `modifySocialPosts` is unreachable. -/
def anthModifyProcessGroups (god : ModGroupOracle) (sod : SingleOracle) :
    List (String × List SocialPost) → AdapterState → List SocialPost × AdapterState
  | [], st => ([], st)
  | g :: gs, st =>
      match g.2 with
      | [q] =>
          let r := anthModifyPostForPlatform sod q st
          let rest := anthModifyProcessGroups god sod gs r.2
          (r.1 :: rest.1, rest.2)
      | qs =>
          let r := anthModifyPostsForGroup god qs st
          let rest := anthModifyProcessGroups god sod gs r.2
          (r.1 ++ rest.1, rest.2)

/-- Anthropic `modifySocialPosts` (src/src/lib/anthropic.ts): group the
posts by platform-name substrings and fan out the modification calls. -/
def anthModifySocialPosts (god : ModGroupOracle) (sod : SingleOracle)
    (posts : List SocialPost) (_instruction : String) (st : AdapterState) :
    List SocialPost × AdapterState :=
  anthModifyProcessGroups god sod (groupByKey anthGetPostType posts) st

/-- Gemini `MAX_REQUESTS_PER_SESSION` (src/unnamed/part_001, line 10). -/
def MAX_REQUESTS_PER_SESSION : Nat := 40

/-- Gemini `groupPlatformsByType` key derivation: the unmatched case keeps
the initial "other" key. -/
def geminiPlatformTypeKey (platform : PlatformConfig) : String :=
  if platform.categories.contains "Social Media" then "social"
  else if platform.categories.contains "Launch Platform" then "launch"
  else if platform.categories.contains "Professional" then "professional"
  else if platform.categories.contains "Developer Community" then "developer"
  else "other"

/-- Gemini `groupPostsByPlatformType` key derivation from platform-name
substrings: the unmatched case keeps the initial "other" key. -/
def geminiPostTypeKey (post : SocialPost) : String :=
  if jsIncludes post.platform "Twitter" || jsIncludes post.platform "X" then "social"
  else if jsIncludes post.platform "Product Hunt" || jsIncludes post.platform "OpenHunt" ||
      jsIncludes post.platform "BetaList" then "launch"
  else if jsIncludes post.platform "LinkedIn" then "professional"
  else if jsIncludes post.platform "Dev.to" || jsIncludes post.platform "Hacker News" then
    "developer"
  else if jsIncludes post.platform "Reddit" then "community"
  else "other"

/-- Gemini `getPlatformSpecificHashtags`. -/
def geminiPlatformHashtags (platformName : String) : List String :=
  if platformName = "Twitter/X" then ["#tech", "#coding"]
  else if platformName = "LinkedIn" then ["#technology", "#innovation"]
  else if platformName = "Product Hunt" then ["#product", "#startup"]
  else if platformName = "Reddit" then ["#programming"]
  else if platformName = "Dev.to" then ["#webdev", "#coding"]
  else if platformName = "Hacker News - Show HN" then ["#showhn"]
  else if platformName = "Indie Hackers" then ["#indiehackers", "#entrepreneur"]
  else if platformName = "GitHub Trending" then ["#trending"]
  else if platformName = "Facebook" then ["#technology", "#programming"]
  else if platformName = "Instagram" then ["#tech", "#coding", "#developer"]
  else ["#tech"]

/-- Result of Gemini `generateFallbackContent`. -/
structure FallbackContent where
  content : String
  hashtags : List String
  copyText : String
deriving DecidableEq

/-- Gemini `generateFallbackContent`: templated content plus hashtags plus
project URL, switching on the exact platform name. -/
def geminiGenerateFallbackContent (project : GitHubProject)
    (platform : PlatformConfig) : FallbackContent :=
  let baseHashtags := ["#" ++ jsToLower project.language, "#opensource"]
  let hashtags := (baseHashtags ++ geminiPlatformHashtags platform.name).take
    (min platform.hashtagLimit 3)
  let content :=
    if platform.name = "Twitter/X" then
      "🚀 " ++ project.name ++ ": " ++ jsSubstring project.description 100
    else if platform.name = "LinkedIn" then
      project.name ++ " - " ++ jsSubstring project.description 120 ++
        ". Built with " ++ project.language ++ "."
    else if platform.name = "Product Hunt" then
      "🚀 " ++ project.name ++ "! " ++ jsSubstring project.description 100
    else if platform.name = "Reddit" then
      project.name ++ " - " ++ jsSubstring project.description 150 ++ ". " ++
        project.language ++ " project. Thoughts?"
    else if platform.name = "Dev.to" then
      "💻 " ++ project.name ++ ": " ++ jsSubstring project.description 100
    else if platform.name = "Hacker News - Show HN" then
      "Show HN: " ++ project.name ++ " - " ++ jsSubstring project.description 120
    else if platform.name = "Indie Hackers" then
      project.name ++ " - " ++ jsSubstring project.description 120 ++ ". " ++
        project.language ++ " project."
    else
      "🚀 " ++ project.name ++ ": " ++ jsSubstring project.description 100
  { content := content
    hashtags := hashtags
    copyText := content ++ " " ++ String.intercalate " " hashtags ++ " " ++ project.url }

/-- The post Gemini `generatePostForPlatform` builds in its catch branch for
a non-quota error: fallback content with `characterCount` taken from the
content only, and no id field. -/
def geminiErrorPost (project : GitHubProject) (platform : PlatformConfig) : SocialPost :=
  let fc := geminiGenerateFallbackContent project platform
  { id := none
    platform := platform.name
    title := some ("Check out " ++ project.name)
    content := some fc.content
    hashtags := fc.hashtags
    characterCount := fc.content.length
    maxCharacters := platform.maxCharacters
    url := platform.url
    copyText := fc.copyText }

/-- The post Gemini `parseGeneratedContent` builds in its catch branch: the
same fallback content but with a fresh temporary id. -/
def geminiParseFailPost (freshId : Nat) (project : GitHubProject)
    (platform : PlatformConfig) : SocialPost :=
  let fc := geminiGenerateFallbackContent project platform
  { id := some freshId
    platform := platform.name
    title := some ("Check out " ++ project.name)
    content := some fc.content
    hashtags := fc.hashtags
    characterCount := fc.content.length
    maxCharacters := platform.maxCharacters
    url := platform.url
    copyText := fc.copyText }

/-- Gemini `parseGeneratedContent`: on a parsed object, `characterCount` is
the length of `content + " " + hashtags.join(" ")` while `copyText` is the
model's own `copyText` when truthy; an absent `hashtags` array makes
`.join` throw, landing in the catch branch like an unparsable response. -/
def geminiParseGeneratedContent (freshId : Nat) (parsed : Option PostData)
    (platform : PlatformConfig) (project : GitHubProject) : SocialPost :=
  match parsed with
  | none => geminiParseFailPost freshId project platform
  | some d =>
      match d.hashtags with
      | none => geminiParseFailPost freshId project platform
      | some hs =>
          let fullContent := jsShow d.content ++ " " ++ String.intercalate " " hs
          { id := some freshId
            platform := platform.name
            title := d.title
            content := d.content
            hashtags := hs
            characterCount := fullContent.length
            maxCharacters := platform.maxCharacters
            url := platform.url
            copyText := jsOrS d.copyText fullContent }

/-- Gemini `rateLimit`: counts the request (the inter-call delay has no
observable effect in this embedding). -/
def geminiRateLimit (st : AdapterState) : AdapterState :=
  { st with requestCount := st.requestCount + 1 }

/-- Gemini `generatePostForPlatform`: rate-limits, issues one model call,
and absorbs every failure mode into deterministic content, so it never
rejects. -/
def geminiGeneratePostForPlatform (sod : SingleOracle) (project : GitHubProject)
    (platform : PlatformConfig) (st : AdapterState) : SocialPost × AdapterState :=
  let st1 := geminiRateLimit st
  let res := sod st1.calls
  let st2 := { st1 with calls := st1.calls + 1 }
  match res with
  | SingleRes.failQuota =>
      (createFallbackPost st2.nextId project platform,
       { st2 with nextId := st2.nextId + 1 })
  | SingleRes.failOther => (geminiErrorPost project platform, st2)
  | SingleRes.malformed =>
      (geminiParseGeneratedContent st2.nextId none platform project,
       { st2 with nextId := st2.nextId + 1 })
  | SingleRes.ok d =>
      (geminiParseGeneratedContent st2.nextId (some d) platform project,
       { st2 with nextId := st2.nextId + 1 })

/-- The per-platform loop of Gemini's grouped-call catch branch (the inner
try/catch is dead because the individual call never rejects). -/
def geminiGenerateEach (sod : SingleOracle) (project : GitHubProject) :
    List PlatformConfig → AdapterState → List SocialPost × AdapterState
  | [], st => ([], st)
  | p :: ps, st =>
      let r := geminiGeneratePostForPlatform sod project p st
      let rest := geminiGenerateEach sod project ps r.2
      (r.1 :: rest.1, rest.2)

/-- Gemini `generatePostsForGroup`: one grouped call (not rate-limited); a
rejection or unparsable response falls back to individual generation for
every member; a parsed `posts` array is paired positionally with the
group. -/
def geminiGeneratePostsForGroup (god : GenGroupOracle) (sod : SingleOracle)
    (project : GitHubProject) (platforms : List PlatformConfig) (st : AdapterState) :
    List SocialPost × AdapterState :=
  let res := god st.calls platforms
  let st1 := { st with calls := st.calls + 1 }
  match res with
  | GroupRes.ok ds =>
      let posts := mkGroupPosts st1.nextId ds platforms
      (posts, { st1 with nextId := st1.nextId + posts.length })
  | _ => geminiGenerateEach sod project platforms st1

/-- The Gemini fan-out over platform groups; no branch rejects, so the
top-level catch of Gemini `generateSocialPosts` is unreachable. -/
def geminiProcessGroups (god : GenGroupOracle) (sod : SingleOracle)
    (project : GitHubProject) :
    List (String × List PlatformConfig) → AdapterState → List SocialPost × AdapterState
  | [], st => ([], st)
  | g :: gs, st =>
      match g.2 with
      | [p] =>
          let r := geminiGeneratePostForPlatform sod project p st
          let rest := geminiProcessGroups god sod project gs r.2
          (r.1 :: rest.1, rest.2)
      | ps =>
          let r := geminiGeneratePostsForGroup god sod project ps st
          let rest := geminiProcessGroups god sod project gs r.2
          (r.1 ++ rest.1, rest.2)

/-- Gemini `generateSocialPosts` (src/unnamed/part_001): when the session
request counter has reached `MAX_REQUESTS_PER_SESSION` the whole request is
served from fallback synthesis without any model call; otherwise platforms
are grouped and fanned out. -/
def geminiGenerateSocialPosts (god : GenGroupOracle) (sod : SingleOracle)
    (project : GitHubProject) (platforms : List PlatformConfig)
    (_customInstructions : Option String) (st : AdapterState) :
    List SocialPost × AdapterState :=
  if st.requestCount ≥ MAX_REQUESTS_PER_SESSION then
    (fallbackAll project platforms st.nextId,
     { st with nextId := st.nextId + platforms.length })
  else
    geminiProcessGroups god sod project (groupByKey geminiPlatformTypeKey platforms) st

/-- A constructed provider adapter.  The Gemini and Anthropic constructors
(visible in src) only store the credential in a client object; the OpenAI
generator class is not under src, and its construction is modelled from the
spec as equally pure (construction must not perform any network call). -/
inductive ContentGenerator where
  | gemini (apiKey : String)
  | openai (apiKey : String)
  | anthropic (apiKey : String)
deriving DecidableEq

/-- `APIFactory.createGenerator` (src/unnamed/part_002): a switch over the
closed provider set; any other identifier throws
`Unsupported API provider: ...`. -/
def createGenerator (provider apiKey : String) : Except String ContentGenerator :=
  if provider = "gemini" then Except.ok (ContentGenerator.gemini apiKey)
  else if provider = "openai" then Except.ok (ContentGenerator.openai apiKey)
  else if provider = "anthropic" then Except.ok (ContentGenerator.anthropic apiKey)
  else Except.error ("Unsupported API provider: " ++ provider)

def sampleProject : GitHubProject :=
  { name := "fastjson"
    description := "A fast JSON parser"
    url := "https://example.com/fastjson"
    language := "Rust"
    stars := 10
    forks := 2
    topics := ["json"]
    readme := "readme"
    owner := { login := "octo", avatar_url := "a" }
    created_at := "2024-01-01"
    updated_at := "2024-01-02"
    projectType := "library"
    keyFeatures := ["fast"] }

def twitterPlatform : PlatformConfig :=
  { name := "Twitter/X"
    maxCharacters := 280
    hashtagLimit := 0
    url := "https://twitter.com/compose/tweet"
    categories := ["Social Media", "Tech", "Open Source", "Programming"]
    rules := [] }

def ceA : PlatformConfig :=
  { name := "A", maxCharacters := 100, hashtagLimit := 0, url := "uA"
    categories := ["Social Media"], rules := [] }

def ceB : PlatformConfig :=
  { name := "B", maxCharacters := 100, hashtagLimit := 0, url := "uB"
    categories := ["Social Media"], rules := [] }

def ceProf : PlatformConfig :=
  { name := "P", maxCharacters := 100, hashtagLimit := 0, url := "uP"
    categories := ["Professional"], rules := [] }

def st0 : AdapterState := { requestCount := 0, calls := 0, nextId := 0 }

def st39 : AdapterState := { requestCount := 39, calls := 0, nextId := 0 }

def tinyPlatform : PlatformConfig :=
  { name := "Tiny", maxCharacters := 1, hashtagLimit := 0, url := "uT"
    categories := [], rules := [] }

def pyProject : GitHubProject :=
  { sampleProject with language := "Python", projectType := "library" }

def tw1 : SocialPost :=
  { id := some 1, platform := "Twitter/X", title := some "t1", content := some "c1"
    hashtags := [], characterCount := 2, maxCharacters := 280, url := "u1", copyText := "c1" }

def tw2 : SocialPost :=
  { id := some 2, platform := "Twitter/X", title := some "t2", content := some "c2"
    hashtags := [], characterCount := 2, maxCharacters := 280, url := "u2", copyText := "c2" }

def shortGroupData : PostData := { copyText := some "hi" }

def modTitleData : PostData := { title := some "nt" }

def mismatchData : PostData :=
  { title := some "t", content := some "a", hashtags := some [], copyText := some "abcdef" }

def makerlogLike : PlatformConfig :=
  { name := "Makerlog", maxCharacters := 500, hashtagLimit := 0, url := "uM"
    categories := ["Productivity", "Makers", "Startup", "Progress Tracking"], rules := [] }

theorem flatSnd_insertGrouped (k : String) (a : α) (gs : List (String × List α)) :
    (flatSnd (insertGrouped k a gs)).Perm (flatSnd gs ++ [a]) := by
  induction gs with
  | nil => simp [insertGrouped, flatSnd]
  | cons g gs ih =>
    obtain ⟨k2, as⟩ := g
    by_cases h : k2 = k
    · simp only [insertGrouped, if_pos h, flatSnd]
      rw [List.append_assoc, List.append_assoc]
      exact List.Perm.append_left as List.perm_append_comm
    · simp only [insertGrouped, if_neg h, flatSnd]
      rw [List.append_assoc]
      exact List.Perm.append_left as ih

theorem flatSnd_groupFold (key : α → String) (l : List α) :
    ∀ gs : List (String × List α),
      (flatSnd (l.foldl (fun acc a => insertGrouped (key a) a acc) gs)).Perm
        (flatSnd gs ++ l) := by
  induction l with
  | nil => intro gs; simp
  | cons a l ih =>
    intro gs
    simp only [List.foldl_cons]
    refine (ih (insertGrouped (key a) a gs)).trans ?_
    refine (List.Perm.append_right l (flatSnd_insertGrouped (key a) a gs)).trans ?_
    rw [List.append_assoc, List.singleton_append]

/-- The group-by accumulation neither drops nor duplicates elements. -/
theorem flatSnd_groupByKey (key : α → String) (l : List α) :
    (flatSnd (groupByKey key l)).Perm l := by
  have h := flatSnd_groupFold key l []
  simpa [flatSnd, groupByKey] using h

theorem filterTake_sublist (p : α → Bool) (l : List α) :
    ((l.filter p).take 5).Sublist l :=
  ((l.filter p).take_sublist 5).trans l.filter_sublist

theorem filterTake_mem (p : α → Bool) (l : List α) (a : α)
    (h : a ∈ (l.filter p).take 5) : p a = true :=
  List.of_mem_filter (List.take_subset 5 (l.filter p) h)

theorem filterTake_idem (p : α → Bool) (l : List α) :
    (((l.filter p).take 5).filter p).take 5 = (l.filter p).take 5 := by
  have h : ((l.filter p).take 5).filter p = (l.filter p).take 5 :=
    List.filter_eq_self.mpr fun a ha => filterTake_mem p l a ha
  rw [h, List.take_take]
  simp

theorem take5_length_le (l : List α) : (l.take 5).length ≤ 5 := by
  rw [List.length_take]
  exact Nat.min_le_left 5 l.length

theorem strLength_append (s t : String) : (s ++ t).length = s.length + t.length :=
  String.length_append s t

theorem jsSubstring_length (s : String) (n : Nat) :
    (jsSubstring s n).length = min n s.length := by
  cases s with
  | mk a => simp [jsSubstring, String.length]

theorem createFallbackPost_platform (freshId : Nat) (project : GitHubProject)
    (platform : PlatformConfig) :
    (createFallbackPost freshId project platform).platform = platform.name := rfl

theorem mkParsedPost_platform (freshId : Nat) (d : PostData) (platform : PlatformConfig) :
    (mkParsedPost freshId d platform).platform = platform.name := rfl

theorem anthGenOne_ok_platform {sod : SingleOracle} {project : GitHubProject}
    {p : PlatformConfig} {st : AdapterState} {post : SocialPost} {st1 : AdapterState}
    (h : anthGeneratePostForPlatform sod project p st = (Except.ok post, st1)) :
    post.platform = p.name := by
  unfold anthGeneratePostForPlatform at h
  cases hres : sod st.calls <;> rw [hres] at h <;>
    simp only [Prod.mk.injEq, Except.ok.injEq] at h
  case failQuota => rw [← h.1]; rfl
  case failOther => exact absurd h.1 (fun hh => Except.noConfusion hh)
  case malformed => rw [← h.1]; rfl
  case ok d => rw [← h.1]; rfl

theorem anthGenCaught_platform (sod : SingleOracle) (project : GitHubProject)
    (p : PlatformConfig) (st : AdapterState) :
    (anthGeneratePostCaught sod project p st).1.platform = p.name := by
  unfold anthGeneratePostCaught
  rcases hgen : anthGeneratePostForPlatform sod project p st with ⟨r, st1⟩
  cases r with
  | ok post => exact anthGenOne_ok_platform hgen
  | error e => rfl

theorem anthGenerateEach_map (sod : SingleOracle) (project : GitHubProject) :
    ∀ (ps : List PlatformConfig) (st : AdapterState),
      ((anthGenerateEach sod project ps st).1.map fun q => q.platform)
        = ps.map fun p => p.name := by
  intro ps
  induction ps with
  | nil => intro st; rfl
  | cons p ps ih =>
      intro st
      simp only [anthGenerateEach, List.map_cons]
      rw [anthGenCaught_platform, ih]

theorem fallbackAll_map (project : GitHubProject) :
    ∀ (ps : List PlatformConfig) (base : Nat),
      ((fallbackAll project ps base).map fun q => q.platform) = ps.map fun p => p.name := by
  intro ps
  induction ps with
  | nil => intro base; rfl
  | cons p ps ih =>
      intro base
      simp only [fallbackAll, List.map_cons]
      rw [createFallbackPost_platform, ih]

theorem mkGroupPosts_map :
    ∀ (ps : List PlatformConfig) (ds : List PostData) (base : Nat),
      ps.length ≤ ds.length →
      ((mkGroupPosts base ds ps).map fun q => q.platform) = ps.map fun p => p.name := by
  intro ps
  induction ps with
  | nil => intro ds base h; cases ds <;> rfl
  | cons p ps ih =>
      intro ds base h
      cases ds with
      | nil => simp at h
      | cons d ds =>
          simp only [mkGroupPosts, List.map_cons]
          rw [mkParsedPost_platform, ih ds (base + 1) (Nat.le_of_succ_le_succ h)]

theorem anthGenGroup_map (god : GenGroupOracle) (sod : SingleOracle)
    (project : GitHubProject) (ps : List PlatformConfig) (st : AdapterState)
    (H : ∀ ds, god st.calls ps = GroupRes.ok ds → ps.length ≤ ds.length) :
    ((anthGeneratePostsForGroup god sod project ps st).1.map fun q => q.platform)
      = ps.map fun p => p.name := by
  unfold anthGeneratePostsForGroup
  cases hres : god st.calls ps with
  | fail => exact anthGenerateEach_map sod project ps _
  | malformed => exact fallbackAll_map project ps _
  | ok ds => exact mkGroupPosts_map ps ds _ (H ds hres)

theorem anthProcessGroups_ok_map (god : GenGroupOracle) (sod : SingleOracle)
    (project : GitHubProject)
    (H : ∀ n qs ds, god n qs = GroupRes.ok ds → qs.length ≤ ds.length) :
    ∀ (gs : List (String × List PlatformConfig)) (st : AdapterState)
      (posts : List SocialPost) (st1 : AdapterState),
      anthProcessGroups god sod project gs st = (Except.ok posts, st1) →
      (posts.map fun q => q.platform) = (flatSnd gs).map fun p => p.name := by
  intro gs
  induction gs with
  | nil =>
      intro st posts st1 h
      simp only [anthProcessGroups, Prod.mk.injEq, Except.ok.injEq] at h
      rw [← h.1]
      rfl
  | cons g gs ih =>
      intro st posts st1 h
      obtain ⟨k, ps⟩ := g
      match ps with
      | [p] =>
          simp only [anthProcessGroups] at h
          rcases hgen : anthGeneratePostForPlatform sod project p st with ⟨r, st2⟩
          rw [hgen] at h
          cases r with
          | error e => exact absurd h (by simp)
          | ok post =>
              dsimp only at h
              rcases hrec : anthProcessGroups god sod project gs st2 with ⟨r2, st3⟩
              rw [hrec] at h
              cases r2 with
              | error e => exact absurd h (by simp)
              | ok rest =>
                  simp only [Prod.mk.injEq, Except.ok.injEq] at h
                  rw [← h.1]
                  simp only [flatSnd, List.map_cons, List.singleton_append]
                  rw [anthGenOne_ok_platform hgen, ih st2 rest st3 hrec]
      | [] =>
          simp only [anthProcessGroups] at h
          rcases hrec : anthProcessGroups god sod project gs
              (anthGeneratePostsForGroup god sod project [] st).2 with ⟨r2, st3⟩
          rw [hrec] at h
          cases r2 with
          | error e => exact absurd h (by simp)
          | ok rest =>
              simp only [Prod.mk.injEq, Except.ok.injEq] at h
              rw [← h.1, List.map_append]
              have hg := anthGenGroup_map god sod project [] st
                (fun ds hds => H st.calls [] ds hds)
              rw [hg, ih _ rest st3 hrec]
              rfl
      | p1 :: p2 :: ptail =>
          simp only [anthProcessGroups] at h
          rcases hrec : anthProcessGroups god sod project gs
              (anthGeneratePostsForGroup god sod project (p1 :: p2 :: ptail) st).2
              with ⟨r2, st3⟩
          rw [hrec] at h
          cases r2 with
          | error e => exact absurd h (by simp)
          | ok rest =>
              simp only [Prod.mk.injEq, Except.ok.injEq] at h
              rw [← h.1, List.map_append]
              have hg := anthGenGroup_map god sod project (p1 :: p2 :: ptail) st
                (fun ds hds => H st.calls (p1 :: p2 :: ptail) ds hds)
              rw [hg, ih _ rest st3 hrec]
              simp [flatSnd]

/-- C1 (amended): `generateSocialPosts` (Anthropic adapter) returns posts
whose platform names are a permutation of the input platform names — hence
exactly one post per platform when names are unique — for every oracle in
which each parsed grouped response carries at least as many post entries as
its group, including all call-failure and unparsable-response conditions. -/
theorem anthropic_generate_covers_platforms (god : GenGroupOracle) (sod : SingleOracle)
    (project : GitHubProject) (platforms : List PlatformConfig) (ci : Option String)
    (st : AdapterState)
    (H : ∀ n qs ds, god n qs = GroupRes.ok ds → qs.length ≤ ds.length) :
    ((anthGenerateSocialPosts god sod project platforms ci st).1.map
      fun q => q.platform).Perm (platforms.map fun p => p.name) := by
  unfold anthGenerateSocialPosts
  rcases hpg : anthProcessGroups god sod project
      (groupByKey anthGetPlatformType platforms) st with ⟨r, st1⟩
  cases r with
  | ok posts =>
      have hmap := anthProcessGroups_ok_map god sod project H _ st posts st1 hpg
      dsimp only
      rw [hmap]
      exact (flatSnd_groupByKey anthGetPlatformType platforms).map fun p => p.name
  | error e =>
      dsimp only
      rw [anthGenerateEach_map]

/-- C1 counterexample: two platforms in one "Social Media" group; the
grouped call parses but its posts array has a single entry, so platform "B"
is silently dropped with no individual retry — the claimed per-platform
bijection fails for a grouped response shorter than its group. -/
theorem anthropic_generate_short_group_drops_platform :
    ((anthGenerateSocialPosts (fun _ _ => GroupRes.ok [shortGroupData])
        (fun _ => SingleRes.malformed) sampleProject [ceA, ceB] none st0).1.map
      fun q => q.platform) = ["A"] ∧
    ([ceA, ceB].map fun p => p.name) = ["A", "B"] := by
  constructor <;> decide

/-- C1 witness: the amended theorem applied at a concrete all-calls-fail
oracle over two platforms. -/
theorem anthropic_generate_covers_platforms_witness :
    ((anthGenerateSocialPosts (fun _ _ => GroupRes.malformed)
        (fun _ => SingleRes.failQuota) sampleProject [ceA, ceB] none st0).1.map
      fun q => q.platform).Perm ([ceA, ceB].map fun p => p.name) :=
  anthropic_generate_covers_platforms _ _ _ _ _ _ (fun _ _ _ h => nomatch h)

/-- Identity-bearing fields that modification must never change. -/
def SameIdentity (q p : SocialPost) : Prop :=
  q.id = p.id ∧ q.platform = p.platform ∧ q.maxCharacters = p.maxCharacters ∧ q.url = p.url

theorem sameIdentity_refl (q : SocialPost) : SameIdentity q q := ⟨rfl, rfl, rfl, rfl⟩

theorem anthMergeModPost_sameIdentity (d : PostData) (q : SocialPost) :
    SameIdentity (anthMergeModPost d q) q := ⟨rfl, rfl, rfl, rfl⟩

theorem mkGroupModPosts_mem :
    ∀ (ds : List PostData) (qs : List SocialPost) (q : SocialPost),
      q ∈ mkGroupModPosts ds qs → ∃ p ∈ qs, SameIdentity q p := by
  intro ds
  induction ds with
  | nil =>
      intro qs q h
      cases qs <;> simp [mkGroupModPosts] at h
  | cons d ds ih =>
      intro qs q h
      cases qs with
      | nil => simp [mkGroupModPosts] at h
      | cons q0 qs =>
          simp only [mkGroupModPosts, List.mem_cons] at h
          rcases h with h | h
          · exact ⟨q0, List.mem_cons_self q0 qs, h ▸ anthMergeModPost_sameIdentity d q0⟩
          · obtain ⟨p, hp, hfields⟩ := ih qs q h
            exact ⟨p, List.mem_cons_of_mem q0 hp, hfields⟩

theorem anthModifyOne_sameIdentity (sod : SingleOracle) (q : SocialPost)
    (st : AdapterState) :
    SameIdentity (anthModifyPostForPlatform sod q st).1 q := by
  unfold anthModifyPostForPlatform
  cases sod st.calls with
  | failQuota => exact sameIdentity_refl q
  | failOther => exact sameIdentity_refl q
  | malformed => exact sameIdentity_refl q
  | ok d => exact anthMergeModPost_sameIdentity d q

theorem anthModifyOne_noOk (sod : SingleOracle) (q : SocialPost) (st : AdapterState)
    (h : ∀ d, sod st.calls ≠ SingleRes.ok d) :
    (anthModifyPostForPlatform sod q st).1 = q := by
  unfold anthModifyPostForPlatform
  cases hres : sod st.calls with
  | failQuota => rfl
  | failOther => rfl
  | malformed => rfl
  | ok d => exact absurd hres (h d)

theorem anthModifyGroup_mem (god : ModGroupOracle) (posts : List SocialPost)
    (st : AdapterState) (q : SocialPost)
    (h : q ∈ (anthModifyPostsForGroup god posts st).1) :
    ∃ p ∈ posts, SameIdentity q p := by
  unfold anthModifyPostsForGroup at h
  cases hres : god st.calls posts <;> rw [hres] at h
  case fail => exact ⟨q, h, sameIdentity_refl q⟩
  case malformed => exact ⟨q, h, sameIdentity_refl q⟩
  case ok ds => exact mkGroupModPosts_mem ds posts q h

theorem anthModifyGroup_noOk (god : ModGroupOracle) (posts : List SocialPost)
    (st : AdapterState) (h : ∀ ds, god st.calls posts ≠ GroupRes.ok ds) :
    (anthModifyPostsForGroup god posts st).1 = posts := by
  unfold anthModifyPostsForGroup
  cases hres : god st.calls posts with
  | fail => rfl
  | malformed => rfl
  | ok ds => exact absurd hres (h ds)

theorem anthModifyProcessGroups_mem (god : ModGroupOracle) (sod : SingleOracle) :
    ∀ (gs : List (String × List SocialPost)) (st : AdapterState) (q : SocialPost),
      q ∈ (anthModifyProcessGroups god sod gs st).1 →
      ∃ p ∈ flatSnd gs, SameIdentity q p := by
  intro gs
  induction gs with
  | nil => intro st q h; simp [anthModifyProcessGroups] at h
  | cons g gs ih =>
      intro st q h
      obtain ⟨k, qs⟩ := g
      match qs with
      | [q0] =>
          simp only [anthModifyProcessGroups, List.mem_cons] at h
          rcases h with h | h
          · refine ⟨q0, ?_, h ▸ anthModifyOne_sameIdentity sod q0 st⟩
            simp [flatSnd]
          · obtain ⟨p, hp, hfields⟩ := ih _ q h
            refine ⟨p, ?_, hfields⟩
            simp only [flatSnd, List.singleton_append, List.mem_cons]
            exact Or.inr hp
      | [] =>
          simp only [anthModifyProcessGroups, List.mem_append] at h
          rcases h with h | h
          · obtain ⟨p, hp, hfields⟩ := anthModifyGroup_mem god [] st q h
            simp at hp
          · obtain ⟨p, hp, hfields⟩ := ih _ q h
            refine ⟨p, ?_, hfields⟩
            simpa [flatSnd] using hp
      | q0 :: q1 :: qtail =>
          simp only [anthModifyProcessGroups, List.mem_append] at h
          rcases h with h | h
          · obtain ⟨p, hp, hfields⟩ := anthModifyGroup_mem god (q0 :: q1 :: qtail) st q h
            refine ⟨p, ?_, hfields⟩
            simp only [flatSnd, List.mem_append]
            exact Or.inl hp
          · obtain ⟨p, hp, hfields⟩ := ih _ q h
            refine ⟨p, ?_, hfields⟩
            simp only [flatSnd, List.mem_append]
            exact Or.inr hp

theorem anthModifyProcessGroups_noOk (god : ModGroupOracle) (sod : SingleOracle)
    (hg : ∀ n qs ds, god n qs ≠ GroupRes.ok ds) (hs : ∀ n d, sod n ≠ SingleRes.ok d) :
    ∀ (gs : List (String × List SocialPost)) (st : AdapterState),
      (anthModifyProcessGroups god sod gs st).1 = flatSnd gs := by
  intro gs
  induction gs with
  | nil => intro st; rfl
  | cons g gs ih =>
      intro st
      obtain ⟨k, qs⟩ := g
      match qs with
      | [q0] =>
          simp only [anthModifyProcessGroups]
          rw [anthModifyOne_noOk sod q0 st (fun d => hs _ d), ih]
          rfl
      | [] =>
          simp only [anthModifyProcessGroups]
          rw [anthModifyGroup_noOk god [] st (fun ds => hg _ _ ds), ih]
          rfl
      | q0 :: q1 :: qtail =>
          simp only [anthModifyProcessGroups]
          rw [anthModifyGroup_noOk god (q0 :: q1 :: qtail) st (fun ds => hg _ _ ds), ih]
          rfl

/-- C3 (amended): every post returned by the Anthropic `modifySocialPosts`
carries the `id`, `platform`, `maxCharacters` and `url` of some input post,
and when no model call yields a parsed object the returned sequence is
exactly the input posts (up to the grouping permutation).  The claimed
same-length guarantee fails when a parsed grouped response is shorter than
its group, and the Gemini individual path assigns a fresh id. -/
theorem anthropic_modify_preserves_identity_fields (god : ModGroupOracle)
    (sod : SingleOracle) (posts : List SocialPost) (instruction : String)
    (st : AdapterState) :
    (∀ q ∈ (anthModifySocialPosts god sod posts instruction st).1,
      ∃ p ∈ posts, SameIdentity q p) ∧
    ((∀ n qs ds, god n qs ≠ GroupRes.ok ds) → (∀ n d, sod n ≠ SingleRes.ok d) →
      ((anthModifySocialPosts god sod posts instruction st).1).Perm posts) := by
  constructor
  · intro q hq
    obtain ⟨p, hp, hfields⟩ :=
      anthModifyProcessGroups_mem god sod (groupByKey anthGetPostType posts) st q hq
    exact ⟨p, (flatSnd_groupByKey anthGetPostType posts).mem_iff.mp hp, hfields⟩
  · intro hg hs
    unfold anthModifySocialPosts
    rw [anthModifyProcessGroups_noOk god sod hg hs]
    exact flatSnd_groupByKey anthGetPostType posts

/-- C3 counterexample: two posts in one "social" group; the grouped
modification response parses but carries a single entry, so the output has
length 1 while the input has length 2 — the claimed length preservation and
id-to-platform mapping preservation fail. -/
theorem anthropic_modify_short_group_shrinks_output :
    (anthModifySocialPosts (fun _ _ => GroupRes.ok [modTitleData])
      (fun _ => SingleRes.malformed) [tw1, tw2] "shorten" st0).1.length = 1 ∧
    ([tw1, tw2].length = 2) := by
  constructor <;> decide

/-- C3 witness: the amended theorem applied at concrete always-failing
oracles over a single post, giving back the original post sequence. -/
theorem anthropic_modify_preserves_identity_fields_witness :
    ((anthModifySocialPosts (fun _ _ => GroupRes.fail) (fun _ => SingleRes.failOther)
      [tw1] "shorten" st0).1).Perm [tw1] :=
  (anthropic_modify_preserves_identity_fields _ _ _ _ _).2
    (fun _ _ _ h => nomatch h) (fun _ _ h => nomatch h)

/-- C2 (amended): `characterCount == len(copyText)` holds for every
deterministic fallback post, for every post built by the Anthropic parse
paths (single and grouped), and is preserved by the Anthropic modification
merge; it fails on the Gemini single-call parse path, which computes
`characterCount` from `content + hashtags` while `copyText` comes from the
model response. -/
theorem characterCount_matches_copyText_on_fallback_and_anthropic_paths :
    (∀ (freshId : Nat) (project : GitHubProject) (platform : PlatformConfig),
      (createFallbackPost freshId project platform).characterCount
        = (createFallbackPost freshId project platform).copyText.length) ∧
    (∀ (freshId : Nat) (d : PostData) (platform : PlatformConfig),
      (mkParsedPost freshId d platform).characterCount
        = (mkParsedPost freshId d platform).copyText.length) ∧
    (∀ (parsed : Option PostData) (orig : SocialPost),
      orig.characterCount = orig.copyText.length →
      (anthParseModificationContent parsed orig).characterCount
        = (anthParseModificationContent parsed orig).copyText.length) := by
  refine ⟨fun freshId project platform => rfl, ?_, ?_⟩
  · intro freshId d platform
    rcases hct : d.copyText with _ | s
    · simp only [mkParsedPost, hct, jsOrS]
      rfl
    · by_cases hs : s = ""
      · subst hs
        simp only [mkParsedPost, hct, jsOrS]
        rfl
      · simp only [mkParsedPost, hct, jsOrS, if_neg hs]
  · intro parsed orig horig
    rcases parsed with _ | d
    · exact horig
    · rcases hct : d.copyText with _ | s
      · simpa [anthParseModificationContent, anthMergeModPost, hct, jsOrS] using horig
      · by_cases hs : s = "" <;>
          simp [anthParseModificationContent, anthMergeModPost, hct, jsOrS, hs, horig]

/-- C2 counterexample: a Gemini single-platform generation whose parsed
response carries `content "a"`, no hashtags to join, and `copyText
"abcdef"`; the constructed post has `characterCount = 2` (length of
`"a "`), but `copyText` has length 6. -/
theorem gemini_parse_characterCount_mismatch :
    ∃ q ∈ (geminiGenerateSocialPosts (fun _ _ => GroupRes.malformed)
        (fun _ => SingleRes.ok mismatchData) sampleProject [twitterPlatform]
        none st0).1,
      q.characterCount ≠ q.copyText.length := by decide

/-- C2 witness: the Anthropic modification-merge clause of the amended
theorem applied to a concrete invariant-satisfying post. -/
theorem characterCount_matches_copyText_witness :
    tw1.characterCount = tw1.copyText.length ∧
    (anthParseModificationContent (some modTitleData) tw1).characterCount
      = (anthParseModificationContent (some modTitleData) tw1).copyText.length :=
  ⟨by decide,
   characterCount_matches_copyText_on_fallback_and_anthropic_paths.2.2
     (some modTitleData) tw1 (by decide)⟩

theorem createFallbackPost_copyText (freshId : Nat) (project : GitHubProject)
    (platform : PlatformConfig) :
    (createFallbackPost freshId project platform).copyText =
      (if (fallbackTemplate project platform).2.2.length > platform.maxCharacters then
        jsSubstring (fallbackTemplate project platform).2.2 (platform.maxCharacters - 3)
          ++ "..."
      else (fallbackTemplate project platform).2.2) := rfl

theorem ellipsis_length : ("..." : String).length = 3 := rfl

/-- C4 (amended): for every platform spec with `maxCharacters ≥ 3` (true of
every catalog platform) the fallback post satisfies
`len(copyText) ≤ maxCharacters`, and when the assembled copyText overflows,
the truncated copyText has length exactly `maxCharacters`.  For
`maxCharacters < 3` the appended three-character ellipsis itself overflows
the limit. -/
theorem fallback_truncation_exact (freshId : Nat) (project : GitHubProject)
    (platform : PlatformConfig) (h3 : 3 ≤ platform.maxCharacters) :
    (createFallbackPost freshId project platform).copyText.length
      ≤ platform.maxCharacters ∧
    ((fallbackTemplate project platform).2.2.length > platform.maxCharacters →
      (createFallbackPost freshId project platform).copyText.length
        = platform.maxCharacters) := by
  rw [createFallbackPost_copyText]
  by_cases h : (fallbackTemplate project platform).2.2.length > platform.maxCharacters
  · rw [if_pos h]
    have hlen : (jsSubstring (fallbackTemplate project platform).2.2
        (platform.maxCharacters - 3) ++ "...").length = platform.maxCharacters := by
      rw [strLength_append, jsSubstring_length, ellipsis_length]
      have hle : platform.maxCharacters - 3 ≤ (fallbackTemplate project platform).2.2.length :=
        le_of_lt (lt_of_le_of_lt (Nat.sub_le platform.maxCharacters 3) h)
      rw [Nat.min_eq_left hle, Nat.sub_add_cancel h3]
    rw [hlen]
    exact ⟨le_refl _, fun _ => rfl⟩
  · rw [if_neg h]
    exact ⟨Nat.le_of_not_lt h, fun hc => absurd hc h⟩

/-- C4 counterexample: a platform spec with `maxCharacters = 1`; the
assembled copyText overflows, `substring(0, -2)` clamps to the empty
string, and the appended ellipsis gives `len(copyText) = 3 > 1`, violating
both the `≤ maxCharacters` bound and the exact-length clause. -/
theorem fallback_truncation_overflows_small_limit :
    (createFallbackPost 0 sampleProject tinyPlatform).copyText.length = 3 ∧
    tinyPlatform.maxCharacters = 1 := by
  constructor <;> decide

/-- C4 witness: the amended theorem at the Twitter/X catalog platform
(`maxCharacters = 280`). -/
theorem fallback_truncation_exact_witness :
    3 ≤ twitterPlatform.maxCharacters ∧
    (createFallbackPost 0 sampleProject twitterPlatform).copyText.length
      ≤ twitterPlatform.maxCharacters :=
  ⟨by decide, (fallback_truncation_exact 0 sampleProject twitterPlatform (by decide)).1⟩

theorem fallbackXBranch_length (a b : String) : (fallbackXBranch a b).length = 3 := by
  unfold fallbackXBranch
  split
  · rfl
  · split
    · rfl
    · split <;> rfl

theorem fallbackRedditBranch_length (a b : String) :
    (fallbackRedditBranch a b).length = 3 := by
  unfold fallbackRedditBranch
  split
  · rfl
  · split
    · rfl
    · split <;> rfl

theorem getFallbackCommunities_length (project : GitHubProject) :
    (getFallbackCommunities project).x.length = 5 ∧
    (getFallbackCommunities project).reddit.length = 5 := by
  unfold getFallbackCommunities
  constructor <;>
    simp [List.length_take, List.length_append, fallbackXBranch_length,
      fallbackRedditBranch_length]

theorem validateX_mem {xs : List String} {c : String}
    (h : c ∈ validateXCommunities xs) : c ∈ validXCommunityNames :=
  of_decide_eq_true (filterTake_mem _ xs c h)

theorem validateReddit_mem {rs : List String} {c : String}
    (h : c ∈ validateRedditCommunities rs) : c ∈ validRedditCommunityNames :=
  of_decide_eq_true (filterTake_mem _ rs c h)

/-- C5 (amended): `findRelevantCommunities` always returns at most 5 names
per side, and whenever the model path succeeds the returned names are
filtered into the fixed allow-lists.  The deterministic rule-based fallback
also returns at most (in fact exactly) 5 per side, but is not allow-list
closed: its python branch emits "DataScience Community" and its web branch
emits "r/javascript", neither of which is in the corresponding
allow-list. -/
theorem communities_validated_bounded (res : CommRes) (project : GitHubProject) :
    (geminiFindRelevantCommunities res project).x.length ≤ 5 ∧
    (geminiFindRelevantCommunities res project).reddit.length ≤ 5 ∧
    (∀ xs rs, res = CommRes.ok (some xs) (some rs) →
      (∀ c ∈ (geminiFindRelevantCommunities res project).x, c ∈ validXCommunityNames) ∧
      (∀ c ∈ (geminiFindRelevantCommunities res project).reddit,
        c ∈ validRedditCommunityNames)) := by
  cases res with
  | fail =>
      refine ⟨?_, ?_, ?_⟩
      · exact le_of_eq (getFallbackCommunities_length project).1
      · exact le_of_eq (getFallbackCommunities_length project).2
      · intro xs rs h; exact absurd h (by simp)
  | malformed =>
      refine ⟨?_, ?_, ?_⟩
      · exact le_of_eq (getFallbackCommunities_length project).1
      · exact le_of_eq (getFallbackCommunities_length project).2
      · intro xs rs h; exact absurd h (by simp)
  | ok ox or =>
      rcases ox with _ | xs0
      · refine ⟨le_of_eq (getFallbackCommunities_length project).1,
          le_of_eq (getFallbackCommunities_length project).2, ?_⟩
        intro xs rs h; exact absurd h (by simp)
      · rcases or with _ | rs0
        · refine ⟨le_of_eq (getFallbackCommunities_length project).1,
            le_of_eq (getFallbackCommunities_length project).2, ?_⟩
          intro xs rs h; exact absurd h (by simp)
        · refine ⟨take5_length_le _, take5_length_le _, ?_⟩
          intro xs rs h
          exact ⟨fun _ hc => validateX_mem hc, fun _ hc => validateReddit_mem hc⟩

/-- C5 counterexample: for a Python project every fallback path (here the
model call fails) returns "DataScience Community", which is not in the X
allow-list — the allow-list closure claimed for all model outputs fails on
the rule-based fallback. -/
theorem fallback_communities_outside_allowlist :
    "DataScience Community" ∈ (geminiFindRelevantCommunities CommRes.fail pyProject).x ∧
    "DataScience Community" ∉ validXCommunityNames := by
  constructor <;> decide

/-- C5 witness: the amended theorem at a concrete successful model
response. -/
theorem communities_validated_bounded_witness :
    ∀ c ∈ (geminiFindRelevantCommunities
      (CommRes.ok (some ["Python Community", "Fake Community"]) (some ["r/python"]))
      sampleProject).x, c ∈ validXCommunityNames :=
  ((communities_validated_bounded
      (CommRes.ok (some ["Python Community", "Fake Community"]) (some ["r/python"]))
      sampleProject).2.2 ["Python Community", "Fake Community"] ["r/python"] rfl).1

/-- C6 (amended): every Gemini `generateSocialPosts` invocation that begins
with the session request counter at or beyond `MAX_REQUESTS_PER_SESSION`
is served entirely from deterministic fallback synthesis, with zero model
calls and the request counter unchanged.  The cap is only checked on entry:
an invocation that begins below the cap continues issuing individual model
calls past it (see the counterexample). -/
theorem generate_short_circuits_at_session_cap (god : GenGroupOracle)
    (sod : SingleOracle) (project : GitHubProject) (platforms : List PlatformConfig)
    (ci : Option String) (st : AdapterState)
    (h : MAX_REQUESTS_PER_SESSION ≤ st.requestCount) :
    geminiGenerateSocialPosts god sod project platforms ci st
      = (fallbackAll project platforms st.nextId,
         { st with nextId := st.nextId + platforms.length }) ∧
    (geminiGenerateSocialPosts god sod project platforms ci st).2.calls = st.calls ∧
    (geminiGenerateSocialPosts god sod project platforms ci st).2.requestCount
      = st.requestCount := by
  unfold geminiGenerateSocialPosts
  rw [if_pos h]
  exact ⟨rfl, rfl, rfl⟩

/-- C6 counterexample: an invocation entered with `requestCount = 39` and
two singleton-group platforms issues two model calls; the second one is the
41st individual generation request of the session, past the cap of 40, yet
it is still sent to the model rather than served from fallback. -/
theorem individual_calls_continue_past_cap :
    (geminiGenerateSocialPosts (fun _ _ => GroupRes.malformed)
      (fun _ => SingleRes.malformed) sampleProject [ceA, ceProf] none st39).2.calls = 2 ∧
    (geminiGenerateSocialPosts (fun _ _ => GroupRes.malformed)
      (fun _ => SingleRes.malformed) sampleProject [ceA, ceProf] none st39).2.requestCount
      = 41 := by
  constructor <;> decide

/-- C6 witness: the amended theorem at a concrete state with the counter at
the cap. -/
theorem generate_short_circuits_at_session_cap_witness :
    MAX_REQUESTS_PER_SESSION ≤ (AdapterState.mk 40 5 7).requestCount ∧
    (geminiGenerateSocialPosts (fun _ _ => GroupRes.malformed)
      (fun _ => SingleRes.malformed) sampleProject [ceA] none
      (AdapterState.mk 40 5 7)).2.calls = (AdapterState.mk 40 5 7).calls :=
  ⟨by decide,
   (generate_short_circuits_at_session_cap (fun _ _ => GroupRes.malformed)
      (fun _ => SingleRes.malformed) sampleProject [ceA] none
      (AdapterState.mk 40 5 7) (by decide)).2.1⟩

/-- C7: `createGenerator` accepts exactly the closed provider set
{"gemini", "openai", "anthropic"} and fails on any other identifier with
the `Unsupported API provider` error at construction time; construction is
pure data (the visible Gemini/Anthropic constructors only store the
credential; the OpenAI adapter class is modelled from the spec as equally
network-free). -/
theorem createGenerator_accepts_exactly_known_providers (provider apiKey : String) :
    ((createGenerator provider apiKey).isOk = true ↔
      provider ∈ ["gemini", "openai", "anthropic"]) ∧
    (provider ∉ ["gemini", "openai", "anthropic"] →
      createGenerator provider apiKey
        = Except.error ("Unsupported API provider: " ++ provider)) := by
  unfold createGenerator
  by_cases h1 : provider = "gemini" <;> by_cases h2 : provider = "openai" <;>
    by_cases h3 : provider = "anthropic" <;>
    simp [h1, h2, h3, Except.isOk, Except.toBool]

/-- C7 witness: the rejection clause of the theorem at the unsupported
provider "mistral". -/
theorem createGenerator_accepts_exactly_known_providers_witness :
    "mistral" ∉ ["gemini", "openai", "anthropic"] ∧
    createGenerator "mistral" "k"
      = Except.error ("Unsupported API provider: " ++ "mistral") :=
  ⟨by decide,
   (createGenerator_accepts_exactly_known_providers "mistral" "k").2 (by decide)⟩

/-- C8 (amended): group-key derivation is pure and total (each derivation
function is a total function) and the produced groups partition the input:
concatenating the groups of `groupPlatformsByType` /
`groupPostsByPlatformType` in either adapter is a permutation of the input,
with nothing dropped or duplicated.  The Gemini derivations send unmatched
cases to the reserved "other" key; the Anthropic derivations send unmatched
platforms to "developer" and unmatched posts to "professional" instead. -/
theorem grouping_partitions_input (platforms : List PlatformConfig)
    (posts : List SocialPost) :
    (flatSnd (groupByKey geminiPlatformTypeKey platforms)).Perm platforms ∧
    (flatSnd (groupByKey geminiPostTypeKey posts)).Perm posts ∧
    (flatSnd (groupByKey anthGetPlatformType platforms)).Perm platforms ∧
    (flatSnd (groupByKey anthGetPostType posts)).Perm posts :=
  ⟨flatSnd_groupByKey geminiPlatformTypeKey platforms,
   flatSnd_groupByKey geminiPostTypeKey posts,
   flatSnd_groupByKey anthGetPlatformType platforms,
   flatSnd_groupByKey anthGetPostType posts⟩

/-- C8 counterexample: a platform whose categories match no grouping rule
is keyed "developer" by the Anthropic platform derivation and its post is
keyed "professional" by the Anthropic post derivation, not the reserved
"other" key required by the claim (the Gemini derivations do use
"other"). -/
theorem anthropic_unmatched_platform_not_other :
    anthGetPlatformType makerlogLike = "developer" ∧
    anthGetPostType { tw1 with platform := "Makerlog" } = "professional" ∧
    geminiPlatformTypeKey makerlogLike = "other" := by
  refine ⟨?_, ?_, ?_⟩ <;> decide

/-- C9: the community validators return an order-preserving sublist of
their input containing only allow-listed names, of length at most 5, and
both are idempotent. -/
theorem validate_communities_sublist_idempotent (l : List String) :
    (validateXCommunities l).Sublist l ∧
    (∀ c ∈ validateXCommunities l, c ∈ validXCommunityNames) ∧
    (validateXCommunities l).length ≤ 5 ∧
    validateXCommunities (validateXCommunities l) = validateXCommunities l ∧
    (validateRedditCommunities l).Sublist l ∧
    (∀ c ∈ validateRedditCommunities l, c ∈ validRedditCommunityNames) ∧
    (validateRedditCommunities l).length ≤ 5 ∧
    validateRedditCommunities (validateRedditCommunities l)
      = validateRedditCommunities l :=
  ⟨filterTake_sublist _ l,
   fun _ hc => validateX_mem hc,
   take5_length_le _,
   filterTake_idem _ l,
   filterTake_sublist _ l,
   fun _ hc => validateReddit_mem hc,
   take5_length_le _,
   filterTake_idem _ l⟩

/-- C9 witness: the allow-list and idempotence clauses at a concrete
candidate list containing one out-of-catalog name. -/
theorem validate_communities_sublist_idempotent_witness :
    "r/python" ∈ validRedditCommunityNames ∧
    validateRedditCommunities (validateRedditCommunities ["r/python", "r/fake"])
      = validateRedditCommunities ["r/python", "r/fake"] :=
  ⟨(validate_communities_sublist_idempotent ["r/python", "r/fake"]).2.2.2.2.2.1
      "r/python" (by decide),
   (validate_communities_sublist_idempotent ["r/python", "r/fake"]).2.2.2.2.2.2.2⟩

/-- C10: the deterministic fallback community recommender returns exactly 5
X names and exactly 5 Reddit names for every project: every branch appends
3 entries to a 2-entry seed before the slice to 5. -/
theorem fallback_communities_exactly_five (project : GitHubProject) :
    (getFallbackCommunities project).x.length = 5 ∧
    (getFallbackCommunities project).reddit.length = 5 :=
  getFallbackCommunities_length project
